import Mathlib

/-!
Verification of the THSR ticket-booking pipeline (Rust sources under `src/`)
against its natural-language specification.

The Rust code is shallowly embedded: pure fragments become Lean functions,
interactive console reads become explicit input parameters (the line the user
typed), `usize`/`u8`/`u16` become `Nat` with explicit bounds where they
matter, and operations that can panic (index out of bounds, `unwrap` on a
missing element, integer underflow) return `Option` with `none` standing for
the panic.  HTML pages are embedded as the lists of elements the relevant
selectors can match, with their text nodes and attribute values.
-/

namespace THSR

/-! ## String helpers mirroring the Rust primitives used by the code -/

/-- Rust `char::is_whitespace` restricted to the ASCII whitespace that the
program's inputs can contain. -/
def isWs (c : Char) : Bool :=
  c = ' ' || c = '\t' || c = '\n' || c = '\r'

/-- Drop whitespace from the right of a character list. -/
def dropWsRight (l : List Char) : List Char :=
  (l.reverse.dropWhile isWs).reverse

/-- Rust `str::trim` on the underlying character list. -/
def trimList (l : List Char) : List Char :=
  dropWsRight (l.dropWhile isWs)

/-- Rust `str::trim`. -/
def rustTrim (s : String) : String :=
  ⟨trimList s.data⟩

/-- Byte-lexicographic strict order on character lists; for the ASCII strings
the program compares this coincides with Rust `str` ordering. -/
def listLt : List Char → List Char → Bool
  | [], [] => false
  | [], _ :: _ => true
  | _ :: _, [] => false
  | a :: as, b :: bs => a.toNat < b.toNat || (a = b && listLt as bs)

/-- Rust `str::le` (lexicographic `<=`). -/
def strLeB (a b : String) : Bool :=
  listLt a.data b.data || a = b

/-- Rust `str::split(sep)` on a character list: splits at every occurrence,
keeping empty fragments (so `""` yields `[""]`). -/
def splitOnCharList (sep : Char) : List Char → List (List Char)
  | [] => [[]]
  | c :: cs =>
    if c = sep then [] :: splitOnCharList sep cs
    else
      match splitOnCharList sep cs with
      | [] => [[c]]
      | g :: gs => (c :: g) :: gs

/-- Rust `str::split(sep).collect::<Vec<_>>()`. -/
def strSplitChar (sep : Char) (s : String) : List String :=
  (splitOnCharList sep s.data).map (fun l => ⟨l⟩)

/-- Concatenation with a separator, mirroring Rust `Vec::join`. -/
def joinWith (sep : String) : List String → String
  | [] => ""
  | [x] => x
  | x :: xs => x ++ sep ++ joinWith sep xs

/-- Value of an ASCII digit, `none` for any other character. -/
def digitVal (c : Char) : Option Nat :=
  if '0' ≤ c ∧ c ≤ '9' then some (c.toNat - 48) else none

/-- Accumulate the decimal value of a digit run; `none` on a non-digit. -/
def parseDigits : List Char → Nat → Option Nat
  | [], acc => some acc
  | c :: cs, acc =>
    match digitVal c with
    | some d => parseDigits cs (10 * acc + d)
    | none => none

/-- Strip the optional leading `'+'` sign Rust's unsigned parser accepts. -/
def stripPlus : List Char → List Char
  | '+' :: rest => rest
  | other => other

/-- Rust `str::parse::<uN>()` for an unsigned integer type with maximum value
`bound`: an optional `'+'` sign, then one or more ASCII digits, and the value
must fit the type (Rust reports overflow as a parse error). -/
def parseRustUInt (bound : Nat) (s : String) : Option Nat :=
  if (stripPlus s.data).isEmpty then none
  else (parseDigits (stripPlus s.data) 0).filter (· ≤ bound)

/-- A string Rust's unsigned parser accepts ignoring the range bound: an
optional `'+'`, then one or more ASCII digits. -/
def isRustNumeric (s : String) : Bool :=
  !(stripPlus s.data).isEmpty && (stripPlus s.data).all fun c => (digitVal c).isSome

/-- The decimal value of the digits of a numeric string. -/
def rustNumValue (s : String) : Nat :=
  (stripPlus s.data).foldl (fun acc c => 10 * acc + (digitVal c).getD 0) 0

/-- Rust `str::parse::<u16>()`. -/
def parseU16 (s : String) : Option Nat := parseRustUInt 65535 s

/-- Rust `str::parse::<u8>()`. -/
def parseU8 (s : String) : Option Nat := parseRustUInt 255 s

/-- Left-pad a string with `'0'` to width `w`, mirroring `format!("{:0w}", n)`
applied to the decimal representation. -/
def padZeros (w : Nat) (s : String) : String :=
  ⟨List.replicate (w - s.length) '0' ++ s.data⟩

/-- Rust `format!("{:04}", n)` for an unsigned integer. -/
def fmt04 (n : Nat) : String := padZeros 4 (Nat.repr n)

/-- Rust `format!("{:02}", n)` for an unsigned integer. -/
def fmt02 (n : Nat) : String := padZeros 2 (Nat.repr n)

/-- Model of `get_input::<String>(hint, default)` from `lib.rs`: the typed line is
trimmed; an empty trimmed line yields the default, anything else parses as the
trimmed string itself (`String::from_str` never fails). -/
def getInputStr (line default : String) : String :=
  if (rustTrim line).isEmpty then default else rustTrim line

/-! ## `schema.rs`: reference tables -/

/-- The `STATION_MAP` table from `schema.rs`. -/
def STATION_MAP : List String :=
  ["Nangang", "Taipei", "Banqiao", "Taoyuan", "Hsinchu", "Miaoli", "Taichung",
   "Changhua", "Yunlin", "Chiayi", "Tainan", "Zuouing"]

/-- The `TIME_TABLE` from `schema.rs`: the 38 departure-time tokens. -/
def TIME_TABLE : List String :=
  ["1201A", "1230A", "600A", "630A", "700A", "730A", "800A", "830A", "900A",
   "930A", "1000A", "1030A", "1100A", "1130A", "1200N", "1230P", "100P",
   "130P", "200P", "230P", "300P", "330P", "400P", "430P", "500P", "530P",
   "600P", "630P", "700P", "730P", "800P", "830P", "900P", "930P", "1000P",
   "1030P", "1100P", "1130P"]

/-- The `TicketType` enum from `schema.rs` (`repr(u8)` discriminants are the
ASCII codes of the type letters). -/
inductive TicketType
  | Adult
  | Child
  | Disabled
  | Elder
  | College
deriving DecidableEq

/-- The `repr(u8)` discriminant of a `TicketType`. -/
def TicketType.reprU8 : TicketType → Nat
  | .Adult => 70
  | .Child => 72
  | .Disabled => 87
  | .Elder => 69
  | .College => 80

/-- The cast `(ticket_type as u8) as char` from `select_ticket_num`. -/
def TicketType.letter (t : TicketType) : Char :=
  Char.ofNat t.reprU8

/-! ## `lib.rs` `booking_flow`: the Stage-1 payload and its field resolvers -/

/-- Struct `BookingPayload` from `lib.rs` (Stage 1).  `u8`/`usize` fields are `Nat`;
the `Option` fields are the ones serde skips when absent. -/
structure BookingPayload where
  start_station : Nat
  dest_station : Nat
  search_by : String
  types_of_trip : Nat
  outbound_date : String
  outbound_time : String
  security_code : String
  seat_prefer : Nat
  form_mark : String
  class_type : Nat
  inbound_date : Option String
  inbound_time : Option String
  to_train_id : Option Nat
  back_train_id : Option Nat
  adult_ticket_num : String
  child_ticket_num : String
  disabled_ticket_num : String
  elder_ticket_num : String
  college_ticket_num : String
deriving DecidableEq

def default_adult_ticket_num : String := "1F"
def default_child_ticket_num : String := "0H"
def default_disabled_ticket_num : String := "0W"
def default_elder_ticket_num : String := "0E"
def default_college_ticket_num : String := "0P"

/-- The `impl Default for BookingPayload` from `lib.rs`. -/
def BookingPayload.default : BookingPayload where
  start_station := 2
  dest_station := 12
  search_by := "1"
  types_of_trip := 0
  outbound_date := "2023/10/01"
  outbound_time := "08:00"
  security_code := "1234"
  seat_prefer := 0
  form_mark := ""
  class_type := 0
  inbound_date := none
  inbound_time := none
  to_train_id := none
  back_train_id := none
  adult_ticket_num := default_adult_ticket_num
  child_ticket_num := default_child_ticket_num
  disabled_ticket_num := default_disabled_ticket_num
  elder_ticket_num := default_elder_ticket_num
  college_ticket_num := default_college_ticket_num

/-- Function `normalize_date` from `lib.rs`: split on `'/'` into exactly three parts,
parse them as `u16`/`u8`/`u8`, require `year >= 1000`, `1 <= month <= 12`,
`1 <= day <= 31`, and zero-pad to `YYYY/MM/DD`. -/
def normalize_date (input : String) : Option String :=
  match strSplitChar '/' input with
  | [y, m, d] =>
    match parseU16 y with
    | none => none
    | some year =>
      match parseU8 m with
      | none => none
      | some month =>
        match parseU8 d with
        | none => none
        | some day =>
          if 1000 ≤ year ∧ 1 ≤ month ∧ month ≤ 12 ∧ 1 ≤ day ∧ day ≤ 31 then
            some (fmt04 year ++ "/" ++ fmt02 month ++ "/" ++ fmt02 day)
          else none
  | _ => none

/-- The value `select_time` resolves for a selection `opt` (the explicit
`--time` argument, or the interactive answer parsed as `usize` with default
10).  The source does `TIME_TABLE[opt - 1]` with `opt : usize`; `opt = 0`
underflows and panics, modelled as `none`; an index panic is also `none`. -/
def select_time (opt : Nat) : Option String :=
  if opt > TIME_TABLE.length then
    TIME_TABLE[9]?
  else if opt = 0 then
    none
  else
    TIME_TABLE[opt - 1]?

/-- The acceptance condition that claim C5 states for `normalize_date`,
transcribed from the spec's words rather than from the source: the input
splits on `'/'` into three numeric parts with month in `1..=12` and day in
`1..=31` (the spec states no condition on the year part beyond numericity).
Used only to compare the claim against the source function. -/
def specC5Accepts (s : String) : Bool :=
  match strSplitChar '/' s with
  | [y, m, d] =>
    isRustNumeric y && isRustNumeric m && isRustNumeric d &&
    decide (1 ≤ rustNumValue m) && decide (rustNumValue m ≤ 12) &&
    decide (1 ≤ rustNumValue d) && decide (rustNumValue d ≤ 31)
  | _ => false

/-- Reference characterization of what `normalize_date` does to a three-part
split, phrased by the numericity and values of the parts; proved equal to the
source function in `normalize_date_eq`. -/
def normSpec (y m d : String) : Option String :=
  if isRustNumeric y = true ∧ 1000 ≤ rustNumValue y ∧ rustNumValue y ≤ 65535 ∧
     isRustNumeric m = true ∧ 1 ≤ rustNumValue m ∧ rustNumValue m ≤ 12 ∧
     isRustNumeric d = true ∧ 1 ≤ rustNumValue d ∧ rustNumValue d ≤ 31 then
    some (fmt04 (rustNumValue y) ++ "/" ++ fmt02 (rustNumValue m) ++ "/" ++
          fmt02 (rustNumValue d))
  else none

/-- The date string `select_date` works on: the explicit `--date` argument if
given, otherwise the interactive answer (`get_input` default = `end_date`). -/
def resolvedDateInput (date : Option String) (userLine end_date : String) :
    String :=
  match date with
  | some d => d
  | none => getInputStr userLine end_date

/-- The trailing empty-check and range-check of `select_date`: an empty or
out-of-window (string-compare, as in the Rust) input resolves to `end_date`,
an in-window input is kept. -/
def dateRangeCheck (start_date end_date input : String) : String :=
  if input.isEmpty then end_date
  else if strLeB start_date input ∧ strLeB input end_date then input
  else end_date

/-- Method `BookingPayload::select_date` from `lib.rs`.  `date` is the explicit
`--date` argument; when it is `none`, `userLine` is the line typed at the
interactive prompt, whose `get_input` default is `end_date`.  The body is the
Rust function read bottom-up: resolve the input, replace it by `end_date`
when `normalize_date` rejects it, then the empty/range checks
(`dateRangeCheck` is the tail of the function).  It always returns a resolved
outbound date and never aborts the run. -/
def select_date (start_date end_date : String) (date : Option String)
    (userLine : String) : String :=
  dateRangeCheck start_date end_date
    ((normalize_date (resolvedDateInput date userLine end_date)).getD end_date)

/-- Method `BookingPayload::select_ticket_num` from `lib.rs`, applied to the resolved
count `val : u8` (explicit argument or interactive answer with default 1):
counts above 10 are replaced by 1, and the chosen field is set to
`format!("{}{}", val, (ticket_type as u8) as char)`. -/
def BookingPayload.select_ticket_num (p : BookingPayload) (t : TicketType)
    (v : Nat) : BookingPayload :=
  let val := if v > 10 then 1 else v
  let s := Nat.repr val ++ (TicketType.letter t).toString
  match t with
  | .Adult => { p with adult_ticket_num := s }
  | .Child => { p with child_ticket_num := s }
  | .Disabled => { p with disabled_ticket_num := s }
  | .Elder => { p with elder_ticket_num := s }
  | .College => { p with college_ticket_num := s }

/-- The ticket field of the payload that `select_ticket_num` writes for a
given ticket type. -/
def BookingPayload.ticketField (p : BookingPayload) : TicketType → String
  | .Adult => p.adult_ticket_num
  | .Child => p.child_ticket_num
  | .Disabled => p.disabled_ticket_num
  | .Elder => p.elder_ticket_num
  | .College => p.college_ticket_num

/-- Method `BookingPayload::select_seat_prefer` from `lib.rs`, applied to the
resolved input (`usize`). -/
def BookingPayload.select_seat_prefer (p : BookingPayload) (input : Nat) :
    BookingPayload :=
  if input > 2 then { p with seat_prefer := 0 }
  else { p with seat_prefer := input }

/-- Method `BookingPayload::select_class_type` from `lib.rs`, applied to the
resolved input (`usize`). -/
def BookingPayload.select_class_type (p : BookingPayload) (input : Nat) :
    BookingPayload :=
  if input > 1 then { p with class_type := 0 }
  else { p with class_type := input }

/-! ## `parse_error`: the shared error-banner scan

A page is embedded as the document-ordered list of its elements, each
recording whether it matches the selector `span.feedbackPanelERROR` and the
list of its text nodes. -/

/-- One element of a scraped page, as seen by `parse_error`. -/
structure PageElement where
  isFeedbackError : Bool
  texts : List String
deriving DecidableEq

/-- The `errors` vector of `parse_error`: over the elements matching
`span.feedbackPanelERROR` in document order, the first text node of each
(`element.text().next()`, elements without one are skipped by `filter_map`),
trimmed. -/
def errorTexts (page : List PageElement) : List String :=
  page.filterMap fun e =>
    if e.isFeedbackError then e.texts.head?.map rustTrim else none

/-- Function `parse_error` from `lib.rs`: `None` when the `errors` vector is empty,
otherwise the texts joined with `"\n"`. -/
def parse_error (page : List PageElement) : Option String :=
  if (errorTexts page).isEmpty then none
  else some (joinWith "\n" (errorTexts page))

/-! ## `confirm_train_flow`: discount annotation and train selection -/

/-- One train listing element (`label.result-item`) as seen by
`parse_discount`: the matches of `p.early-bird span` and `p.student span`
inside it, each with its list of text nodes. -/
structure TrainListingItem where
  earlyBirdSpans : List (List String)
  studentSpans : List (List String)
deriving DecidableEq

/-- One `if let Some(tag) = item.select(sel).next()` push of
`parse_discount`: no matching span contributes nothing; a matching span
contributes `tag.text().next().unwrap()` (no text node = panic = `none`). -/
def firstSpanText (spans : List (List String)) : Option (List String) :=
  match spans.head? with
  | none => some []
  | some ts =>
    match ts.head? with
    | none => none
    | some t => some [t]

/-- Function `parse_discount` from `lib.rs`: push the early-bird span text then the
student span text (either may be absent), and wrap the `", "`-join in
parentheses, or return `""` when neither is present. -/
def parse_discount (item : TrainListingItem) : Option String :=
  match firstSpanText item.earlyBirdSpans, firstSpanText item.studentSpans with
  | some early, some student =>
    if (early ++ student).isEmpty then some ""
    else some ("(" ++ joinWith ", " (early ++ student) ++ ")")
  | _, _ => none

/-- Struct `Train` from `lib.rs` (`confirm_train_flow`). -/
structure Train where
  id : Nat
  depart : String
  arrive : String
  travel_time : String
  discount_info : String
  form_value : String
deriving DecidableEq

/-- Method `ConfirmTrainPayload::select_available_trains` from `lib.rs`, applied
to
the resolved selection (`usize`, interactive default 1): the source indexes
`trains[selection - 1]` with no bounds check, so `selection = 0` (usize
underflow) and `selection > trains.len()` panic (`none`); otherwise the
selected train's opaque `form_value` is copied verbatim. -/
def select_available_trains (trains : List Train) (selection : Nat) :
    Option String :=
  if selection = 0 then none
  else (trains[selection - 1]?).map Train.form_value

/-! ## `confirm_ticket_flow::process_early_bird`

The confirmation page is embedded as: the text-node lists of the elements
matching `.superEarlyBird` (document order), and the `value` attribute of the
first `input[name='...passengerDataTypeName']` element (`none` = absent, its
`unwrap` panics).  The `HashMap` the Rust function builds keys every value by
the passenger row index and the field name, so it is embedded as the indexed
list of per-passenger field records. -/

/-- The confirmation page as seen by `process_early_bird`. -/
structure ConfirmPage where
  earlyBirdElems : List (List String)
  passengerTypeValue : Option String

/-- One passenger's five fields in the early-bird addendum
(`...:passengerDataView:{i}:passengerDataView2:<field>`). -/
structure Passenger where
  lastName : String
  firstName : String
  typeName : String
  idNumber : String
  inputChoice : String
deriving DecidableEq

/-- The retry loop of `process_early_bird` for one subsequent passenger: keep
reading lines (`get_input` with default `""`) until one trims to non-empty;
`none` models the loop never terminating because every available line is
blank. -/
def firstNonEmpty : List String → Option String
  | [] => none
  | l :: ls =>
    if (getInputStr l "").isEmpty then firstNonEmpty ls
    else some (getInputStr l "")

/-- The `for i in 1..elem.len()` loop of `process_early_bird`: build the
field set of each subsequent passenger, reading the id from that passenger's
retry-input lines (`restLines k` is the k-th subsequent passenger's lines). -/
def earlyBirdRest (early_type : String) (restLines : Nat → List String) :
    Nat → Nat → Option (List Passenger)
  | _, 0 => some []
  | k, n + 1 => do
    let id ← firstNonEmpty (restLines k)
    let rest ← earlyBirdRest early_type restLines (k + 1) n
    pure ({ lastName := "", firstName := "", typeName := early_type,
            idNumber := rustTrim id, inputChoice := "0" } :: rest)

/-- The `elem` vector of `process_early_bird`: the first text node of each
`.superEarlyBird` element (elements without one are skipped by
`filter_map`). -/
def earlyBirdTexts (page : ConfirmPage) : List String :=
  page.earlyBirdElems.filterMap List.head?

/-- Function `process_early_bird` from `lib.rs`.  `firstLine` is the answer to the
first passenger's id prompt (`get_input` default = `personal_id`);
`restLines k` are the retry answers for the k-th subsequent passenger.  The
outer `Option` is `none` on a panic (absent hidden type field) or a
never-terminating retry loop; the inner `Option` is the Rust return value
(`None` = no early-bird markers). -/
def process_early_bird (page : ConfirmPage) (personal_id : String)
    (firstLine : String) (restLines : Nat → List String) :
    Option (Option (List Passenger)) :=
  if (earlyBirdTexts page).isEmpty then some none
  else
    match page.passengerTypeValue with
    | none => none
    | some early_type =>
      match earlyBirdRest early_type restLines 0
          ((earlyBirdTexts page).length - 1) with
      | none => none
      | some rest =>
        some (some ({ lastName := "", firstName := "",
                      typeName := early_type,
                      idNumber := getInputStr firstLine personal_id,
                      inputChoice := "0" } :: rest))

/-! ## `serde_urlencoded` round trip for the Stage-1 payload

`serde_urlencoded::to_string` serializes the struct fields in declaration
order under their `serde(rename)` names, skipping `Option` fields that are
`None`, percent-encoding keys and values with the `form_urlencoded` rules:
ASCII alphanumerics and `*-._` kept, space becomes `'+'`, every other byte
becomes `%XX` (uppercase hex; all characters involved here are ASCII). -/

/-- A character the `form_urlencoded` encoder leaves unescaped. -/
def isFormUnescaped (c : Char) : Bool :=
  c.isAlphanum || c = '*' || c = '-' || c = '.' || c = '_'

/-- Uppercase hex digit of a value below 16. -/
def hexUpper (n : Nat) : Char :=
  if n < 10 then Char.ofNat (48 + n) else Char.ofNat (55 + n)

/-- The `form_urlencoded` encoding of one ASCII character. -/
def encodeFormChar (c : Char) : List Char :=
  if isFormUnescaped c then [c]
  else if c = ' ' then ['+']
  else ['%', hexUpper (c.toNat / 16), hexUpper (c.toNat % 16)]

/-- The `form_urlencoded` encoding of a string. -/
def percentEncode (s : String) : String :=
  ⟨(s.data.map encodeFormChar).flatten⟩

/-- Encode key/value pairs as `k1=v1&k2=v2&...`. -/
def encodePairs (ps : List (String × String)) : String :=
  joinWith "&" (ps.map fun p => percentEncode p.1 ++ "=" ++ percentEncode p.2)

/-- The (renamed) key/value pairs of a `BookingPayload`, in field-declaration
order, with `None` options skipped — exactly what
`serde_urlencoded::to_string(&payload)` emits. -/
def BookingPayload.toPairs (p : BookingPayload) : List (String × String) :=
  [("selectStartStation", Nat.repr p.start_station),
   ("selectDestinationStation", Nat.repr p.dest_station),
   ("bookingMethod", p.search_by),
   ("tripCon:typesoftrip", Nat.repr p.types_of_trip),
   ("toTimeInputField", p.outbound_date),
   ("toTimeTable", p.outbound_time),
   ("homeCaptcha:securityCode", p.security_code),
   ("seatCon:seatRadioGroup", Nat.repr p.seat_prefer),
   ("BookingS1Form:hf:0", p.form_mark),
   ("trainCon:trainRadioGroup", Nat.repr p.class_type)]
  ++ (match p.inbound_date with
      | some d => [("backTimeInputField", d)]
      | none => [])
  ++ (match p.inbound_time with
      | some t => [("backTimeTable", t)]
      | none => [])
  ++ (match p.to_train_id with
      | some i => [("toTrainIDInputField", Nat.repr i)]
      | none => [])
  ++ (match p.back_train_id with
      | some i => [("backTrainIDInputField", Nat.repr i)]
      | none => [])
  ++ [("ticketPanel:rows:0:ticketAmount", p.adult_ticket_num),
      ("ticketPanel:rows:1:ticketAmount", p.child_ticket_num),
      ("ticketPanel:rows:2:ticketAmount", p.disabled_ticket_num),
      ("ticketPanel:rows:3:ticketAmount", p.elder_ticket_num),
      ("ticketPanel:rows:4:ticketAmount", p.college_ticket_num)]

/-- The `serde_urlencoded::to_string` encoding of a `BookingPayload`. -/
def encodeBookingPayload (p : BookingPayload) : String :=
  encodePairs p.toPairs

/-- The `form_urlencoded` percent-decoding of a character list. -/
def percentDecodeList : List Char → List Char
  | [] => []
  | '%' :: h :: l :: rest =>
    match digitVal h <|> hexVal h, digitVal l <|> hexVal l with
    | some a, some b => Char.ofNat (16 * a + b) :: percentDecodeList rest
    | _, _ => '%' :: percentDecodeList (h :: l :: rest)
  | '+' :: rest => ' ' :: percentDecodeList rest
  | c :: rest => c :: percentDecodeList rest
where
  /-- Value of an uppercase or lowercase hex letter. -/
  hexVal (c : Char) : Option Nat :=
    if 'A' ≤ c ∧ c ≤ 'F' then some (c.toNat - 55)
    else if 'a' ≤ c ∧ c ≤ 'f' then some (c.toNat - 87)
    else none

/-- Split a `k=v` fragment at its first `'='`. -/
def breakOnChar (sep : Char) : List Char → List Char × List Char
  | [] => ([], [])
  | c :: cs =>
    if c = sep then ([], cs)
    else
      let r := breakOnChar sep cs
      (c :: r.1, r.2)

/-- Decode a URL-encoded form body back into its key/value pairs. -/
def decodePairs (s : String) : List (String × String) :=
  (splitOnCharList '&' s.data).map fun kv =>
    let r := breakOnChar '=' kv
    (⟨percentDecodeList r.1⟩, ⟨percentDecodeList r.2⟩)

/-- First value stored under a key. -/
def lookupField (key : String) (ps : List (String × String)) : Option String :=
  (ps.find? fun p => p.1 = key).map Prod.snd

/-! ## Helper lemmas -/

theorem getElem?_isSome_iff {α : Type} (l : List α) (i : Nat) :
    (l[i]?).isSome = true ↔ i < l.length := by
  cases h : l[i]? with
  | none => simp [List.getElem?_eq_none_iff.mp h]
  | some a =>
    rcases List.getElem?_eq_some.mp h with ⟨hlt, _⟩
    simp [hlt]

theorem parseDigits_eq (cs : List Char) (acc : Nat) :
    parseDigits cs acc =
      if (cs.all fun c => (digitVal c).isSome) = true then
        some (cs.foldl (fun a c => 10 * a + (digitVal c).getD 0) acc)
      else none := by
  induction cs generalizing acc with
  | nil => simp [parseDigits]
  | cons c cs ih =>
    cases h : digitVal c with
    | none => simp [parseDigits, h]
    | some d => simp [parseDigits, h, ih]

theorem parseRustUInt_eq_some (bound : Nat) (s : String) (v : Nat) :
    parseRustUInt bound s = some v ↔
      isRustNumeric s = true ∧ rustNumValue s = v ∧ v ≤ bound := by
  unfold parseRustUInt isRustNumeric rustNumValue
  cases h : stripPlus s.data with
  | nil => simp
  | cons c cs =>
    rw [if_neg (by simp : ¬((c :: cs).isEmpty = true)), parseDigits_eq]
    simp only [List.isEmpty_cons, Bool.not_false, Bool.true_and]
    by_cases hall : ((c :: cs).all fun x => (digitVal x).isSome) = true
    · rw [if_pos hall]
      simp only [hall, true_and, Option.filter_some]
      by_cases hb : List.foldl (fun a x => 10 * a + (digitVal x).getD 0) 0
          (c :: cs) ≤ bound
      · rw [if_pos (by simpa using hb)]
        constructor
        · intro hsv
          cases hsv
          exact ⟨rfl, hb⟩
        · rintro ⟨rfl, _⟩
          rfl
      · rw [if_neg (by simpa using hb)]
        constructor
        · intro hsv
          cases hsv
        · rintro ⟨rfl, hv⟩
          exact absurd hv hb
    · rw [if_neg hall]
      simp [hall]

theorem parseRustUInt_isSome (bound : Nat) (s : String) :
    (parseRustUInt bound s).isSome = true ↔
      isRustNumeric s = true ∧ rustNumValue s ≤ bound := by
  rw [Option.isSome_iff_exists]
  constructor
  · rintro ⟨v, hv⟩
    rcases (parseRustUInt_eq_some bound s v).mp hv with ⟨h1, h2, h3⟩
    exact ⟨h1, h2 ▸ h3⟩
  · rintro ⟨h1, h2⟩
    exact ⟨rustNumValue s, (parseRustUInt_eq_some bound s _).mpr ⟨h1, rfl, h2⟩⟩

theorem normSpec_none_year {y : String} (m d : String)
    (hy : parseU16 y = none) : normSpec y m d = none := by
  unfold normSpec
  rw [if_neg]
  rintro ⟨hny, _, h65535, _⟩
  have hps := (parseRustUInt_eq_some 65535 y (rustNumValue y)).mpr
    ⟨hny, rfl, h65535⟩
  rw [show parseRustUInt 65535 y = parseU16 y from rfl, hy] at hps
  exact Option.noConfusion hps

theorem normSpec_none_month {m : String} (y d : String)
    (hm : parseU8 m = none) : normSpec y m d = none := by
  unfold normSpec
  rw [if_neg]
  rintro ⟨_, _, _, hnm, _, h12, _⟩
  have hps := (parseRustUInt_eq_some 255 m (rustNumValue m)).mpr
    ⟨hnm, rfl, by omega⟩
  rw [show parseRustUInt 255 m = parseU8 m from rfl, hm] at hps
  exact Option.noConfusion hps

theorem normSpec_none_day {d : String} (y m : String)
    (hd : parseU8 d = none) : normSpec y m d = none := by
  unfold normSpec
  rw [if_neg]
  rintro ⟨_, _, _, _, _, _, hnd, _, h31⟩
  have hps := (parseRustUInt_eq_some 255 d (rustNumValue d)).mpr
    ⟨hnd, rfl, by omega⟩
  rw [show parseRustUInt 255 d = parseU8 d from rfl, hd] at hps
  exact Option.noConfusion hps

theorem normSpec_some {y m d : String} {ny nm nd : Nat}
    (hy : parseU16 y = some ny) (hm : parseU8 m = some nm)
    (hd : parseU8 d = some nd) :
    normSpec y m d =
      if 1000 ≤ ny ∧ 1 ≤ nm ∧ nm ≤ 12 ∧ 1 ≤ nd ∧ nd ≤ 31 then
        some (fmt04 ny ++ "/" ++ fmt02 nm ++ "/" ++ fmt02 nd)
      else none := by
  rcases (parseRustUInt_eq_some 65535 y ny).mp hy with ⟨hny, hvy, hby⟩
  rcases (parseRustUInt_eq_some 255 m nm).mp hm with ⟨hnm, hvm, hbm⟩
  rcases (parseRustUInt_eq_some 255 d nd).mp hd with ⟨hnd, hvd, hbd⟩
  subst hvy hvm hvd
  unfold normSpec
  by_cases hc : 1000 ≤ rustNumValue y ∧ 1 ≤ rustNumValue m ∧
      rustNumValue m ≤ 12 ∧ 1 ≤ rustNumValue d ∧ rustNumValue d ≤ 31
  · rw [if_pos hc, if_pos ⟨hny, hc.1, hby, hnm, hc.2.1, hc.2.2.1, hnd,
      hc.2.2.2.1, hc.2.2.2.2⟩]
  · rw [if_neg hc, if_neg]
    rintro ⟨_, h1, _, _, h2, h3, _, h4, h5⟩
    exact hc ⟨h1, h2, h3, h4, h5⟩

/-- Evaluating `normalize_date` on an input that splits into three parts agrees
with the flat characterization `normSpec`. -/
theorem normalize_date_split3 {s y m d : String}
    (hsp : strSplitChar '/' s = [y, m, d]) :
    normalize_date s = normSpec y m d := by
  have h1 : normalize_date s =
      (match parseU16 y with
       | none => none
       | some year =>
         match parseU8 m with
         | none => none
         | some month =>
           match parseU8 d with
           | none => none
           | some day =>
             if 1000 ≤ year ∧ 1 ≤ month ∧ month ≤ 12 ∧ 1 ≤ day ∧ day ≤ 31 then
               some (fmt04 year ++ "/" ++ fmt02 month ++ "/" ++ fmt02 day)
             else none) := by
    unfold normalize_date
    rw [hsp]
  rw [h1]
  cases hy : parseU16 y with
  | none => exact (normSpec_none_year m d hy).symm
  | some ny =>
    cases hm : parseU8 m with
    | none => exact (normSpec_none_month y d hm).symm
    | some nm =>
      cases hd : parseU8 d with
      | none => exact (normSpec_none_day y m hd).symm
      | some nd => exact (normSpec_some hy hm hd).symm

/-- Full characterization of `normalize_date` in terms of the numericity and
values of the three slash-separated parts. -/
theorem normalize_date_eq (s : String) :
    normalize_date s =
      match strSplitChar '/' s with
      | [y, m, d] => normSpec y m d
      | _ => none := by
  cases hsp : strSplitChar '/' s with
  | nil => unfold normalize_date; rw [hsp]
  | cons y rest =>
    match rest with
    | [] => unfold normalize_date; rw [hsp]
    | [_] => unfold normalize_date; rw [hsp]
    | [m, d] => exact normalize_date_split3 hsp
    | _ :: _ :: _ :: _ => unfold normalize_date; rw [hsp]

/-! ## Claim C1: `select_time` -/

/-- Claim C1, counterexample.  The claim asserts that every selection `i`
with `i < 1` — that is, `i = 0`, since the selection is a `usize` — resolves
the outbound time to `TIME_TABLE[9] = "930A"`.  In fact the source computes
`TIME_TABLE[0 - 1]` on a `usize`, which panics (underflow in debug, index out
of bounds in release); no time token is resolved at all. -/
theorem claim_C1_counterexample :
    select_time 0 ≠ some "930A" ∧ select_time 0 = none := by decide

/-- Claim C1, amended: for every selection `i > 38` `select_time` resolves
the outbound time token to the 10th entry of the 38-entry time table
(`TIME_TABLE[9] = "930A"`); for `1 ≤ i ≤ 38` it resolves to the `i`-th
table entry; for `i = 0` (the only `usize` with `i < 1`) the operation
panics instead of defaulting. -/
theorem claim_C1_select_time (i : Nat) :
    (i = 0 → select_time i = none) ∧
    (1 ≤ i → i ≤ 38 →
      select_time i = TIME_TABLE[i - 1]? ∧ (select_time i).isSome = true) ∧
    (38 < i → select_time i = some "930A") := by
  have hlen : TIME_TABLE.length = 38 := by rfl
  refine ⟨?_, ?_, ?_⟩
  · rintro rfl
    rfl
  · intro h1 h38
    have hval : select_time i = TIME_TABLE[i - 1]? := by
      unfold select_time
      rw [if_neg (by rw [hlen]; omega), if_neg (by omega)]
    refine ⟨hval, ?_⟩
    rw [hval, getElem?_isSome_iff, hlen]
    omega
  · intro h
    unfold select_time
    rw [if_pos (by rw [hlen]; omega)]
    rfl

/-- Claim C1, witness: the amended theorem applied at the concrete
selections 0, 10 and 39. -/
theorem claim_C1_witness :
    select_time 0 = none ∧ select_time 10 = TIME_TABLE[9]? ∧
      select_time 39 = some "930A" :=
  ⟨(claim_C1_select_time 0).1 rfl,
   ((claim_C1_select_time 10).2.1 (by decide) (by decide)).1,
   (claim_C1_select_time 39).2.2 (by decide)⟩

/-! ## Claim C5: `normalize_date` -/

/-- Claim C5, counterexample.  The claim asserts that the only inputs
`normalize_date` rejects are those with a non-three-part shape, a non-numeric
part, or month/day out of range; `"999/1/1"` has three numeric parts with
month and day in range (`specC5Accepts`), yet the source also requires
`year >= 1000` and returns `None`. -/
theorem claim_C5_counterexample :
    specC5Accepts "999/1/1" = true ∧ normalize_date "999/1/1" = none := by
  decide

/-- Claim C5, amended: `normalize_date` returns the zero-padded `YYYY/MM/DD`
form of its input exactly when the input splits on `'/'` into three numeric
parts (optional `'+'`, then digits) with the year value in `1000..=65535`
(the `u16`-parse bound), month in `1..=12` and day in `1..=31`; every other
input yields `None`. -/
theorem claim_C5_normalize_date (s : String) :
    ((normalize_date s).isSome = true ↔
      ∃ y m d, strSplitChar '/' s = [y, m, d] ∧
        isRustNumeric y = true ∧ 1000 ≤ rustNumValue y ∧
        rustNumValue y ≤ 65535 ∧
        isRustNumeric m = true ∧ 1 ≤ rustNumValue m ∧ rustNumValue m ≤ 12 ∧
        isRustNumeric d = true ∧ 1 ≤ rustNumValue d ∧ rustNumValue d ≤ 31) ∧
    (∀ y m d, strSplitChar '/' s = [y, m, d] →
      (normalize_date s).isSome = true →
      normalize_date s =
        some (fmt04 (rustNumValue y) ++ "/" ++ fmt02 (rustNumValue m) ++ "/" ++
              fmt02 (rustNumValue d))) := by
  cases hsp : strSplitChar '/' s with
  | nil =>
    have hnone : normalize_date s = none := by unfold normalize_date; rw [hsp]
    constructor
    · simp only [hnone, Option.isSome_none, Bool.false_eq_true, false_iff]
      rintro ⟨y, m, d, hsp', _⟩
      exact List.noConfusion hsp'
    · intro y m d hsp'
      exact absurd hsp' (List.noConfusion · )
  | cons y0 rest =>
    match rest with
    | [] =>
      have hnone : normalize_date s = none := by unfold normalize_date; rw [hsp]
      constructor
      · simp only [hnone, Option.isSome_none, Bool.false_eq_true, false_iff]
        rintro ⟨y, m, d, hsp', _⟩
        simp at hsp'
      · intro y m d hsp'
        simp at hsp'
    | [_] =>
      have hnone : normalize_date s = none := by unfold normalize_date; rw [hsp]
      constructor
      · simp only [hnone, Option.isSome_none, Bool.false_eq_true, false_iff]
        rintro ⟨y, m, d, hsp', _⟩
        simp at hsp'
      · intro y m d hsp'
        simp at hsp'
    | _ :: _ :: _ :: _ =>
      have hnone : normalize_date s = none := by unfold normalize_date; rw [hsp]
      constructor
      · simp only [hnone, Option.isSome_none, Bool.false_eq_true, false_iff]
        rintro ⟨y, m, d, hsp', _⟩
        simp at hsp'
      · intro y m d hsp'
        simp at hsp'
    | [m0, d0] =>
      have heq : normalize_date s = normSpec y0 m0 d0 := normalize_date_split3 hsp
      unfold normSpec at heq
      by_cases hC : isRustNumeric y0 = true ∧ 1000 ≤ rustNumValue y0 ∧
          rustNumValue y0 ≤ 65535 ∧
          isRustNumeric m0 = true ∧ 1 ≤ rustNumValue m0 ∧ rustNumValue m0 ≤ 12 ∧
          isRustNumeric d0 = true ∧ 1 ≤ rustNumValue d0 ∧ rustNumValue d0 ≤ 31
      · rw [if_pos hC] at heq
        constructor
        · simp only [heq, Option.isSome_some, true_iff]
          exact ⟨y0, m0, d0, rfl, hC⟩
        · intro y m d hsp' _
          obtain ⟨rfl, rfl, rfl⟩ : y0 = y ∧ m0 = m ∧ d0 = d := by
            simpa using hsp'
          exact heq
      · rw [if_neg hC] at heq
        constructor
        · simp only [heq, Option.isSome_none, Bool.false_eq_true, false_iff]
          rintro ⟨y, m, d, hsp', hcond⟩
          obtain ⟨rfl, rfl, rfl⟩ : y0 = y ∧ m0 = m ∧ d0 = d := by
            simpa using hsp'
          exact hC hcond
        · intro y m d hsp' hs
          rw [heq] at hs
          exact absurd hs (by simp)

/-- Claim C5, witness: the amended theorem applied at the concrete input
`"2024/6/5"`, which normalizes to its zero-padded form. -/
theorem claim_C5_witness : normalize_date "2024/6/5" = some "2024/06/05" :=
  ((claim_C5_normalize_date "2024/6/5").2 "2024" "6" "5" (by decide)
    (by decide)).trans (by decide)

/-! ## Claim C2: `select_date` -/

theorem slashy_isEmpty_false (a b c : String) :
    (a ++ "/" ++ b ++ "/" ++ c).isEmpty = false := by
  cases hie : (a ++ "/" ++ b ++ "/" ++ c).isEmpty with
  | false => rfl
  | true =>
    have hs : a ++ "/" ++ b ++ "/" ++ c = "" := (String.isEmpty_iff _).mp hie
    have hd := congrArg String.data hs
    simp [String.data_append] at hd

/-- The output of `normalize_date` is never the empty string. -/
theorem normalize_date_ne_empty {s r : String}
    (h : normalize_date s = some r) : r.isEmpty = false := by
  have heq := normalize_date_eq s
  rw [h] at heq
  cases hsp : strSplitChar '/' s with
  | nil =>
    rw [hsp] at heq
    exact Option.noConfusion heq
  | cons y rest =>
    match rest with
    | [] =>
      rw [hsp] at heq
      exact Option.noConfusion heq
    | [_] =>
      rw [hsp] at heq
      exact Option.noConfusion heq
    | _ :: _ :: _ :: _ =>
      rw [hsp] at heq
      exact Option.noConfusion heq
    | [m, d] =>
      rw [hsp] at heq
      have heq2 : some r = normSpec y m d := heq
      unfold normSpec at heq2
      by_cases hC : isRustNumeric y = true ∧ 1000 ≤ rustNumValue y ∧
          rustNumValue y ≤ 65535 ∧
          isRustNumeric m = true ∧ 1 ≤ rustNumValue m ∧ rustNumValue m ≤ 12 ∧
          isRustNumeric d = true ∧ 1 ≤ rustNumValue d ∧ rustNumValue d ≤ 31
      · rw [if_pos hC] at heq2
        cases heq2
        exact slashy_isEmpty_false _ _ _
      · rw [if_neg hC] at heq2
        exact Option.noConfusion heq2

theorem dateRangeCheck_self (s e : String) : dateRangeCheck s e e = e := by
  unfold dateRangeCheck
  split_ifs <;> rfl

/-- Claim C2: with a scraped window whose `end_date` is stable under
normalization (as any well-formed zero-padded `YYYY/MM/DD` page value is):
(1) when the user supplies no date (no CLI argument, blank prompt answer)
the resolved outbound date is `end_date`; (2) when the supplied date is
malformed the run does not abort and resolves to `end_date`; (3) when the
supplied date normalizes but lies outside the inclusive window (the string
comparison the source performs) it resolves to `end_date`; (4) when the
supplied date normalizes and lies inside the window it resolves to its
zero-padded `YYYY/MM/DD` form. -/
theorem claim_C2_select_date (s e : String) (d : Option String) (line : String)
    (he : (normalize_date e).getD e = e) :
    (d = none → rustTrim line = "" → select_date s e d line = e) ∧
    (normalize_date (resolvedDateInput d line e) = none →
      select_date s e d line = e) ∧
    (∀ nx, normalize_date (resolvedDateInput d line e) = some nx →
      ¬(strLeB s nx = true ∧ strLeB nx e = true) →
      select_date s e d line = e) ∧
    (∀ nx, normalize_date (resolvedDateInput d line e) = some nx →
      strLeB s nx = true → strLeB nx e = true →
      select_date s e d line = nx) := by
  refine ⟨?_, ?_, ?_, ?_⟩
  · rintro rfl hline
    have hres : resolvedDateInput none line e = e := by
      unfold resolvedDateInput getInputStr
      rw [hline]
      rfl
    unfold select_date
    rw [hres, he]
    exact dateRangeCheck_self s e
  · intro hn
    unfold select_date
    rw [hn, Option.getD_none]
    exact dateRangeCheck_self s e
  · intro nx hx hnot
    unfold select_date
    rw [hx, Option.getD_some]
    unfold dateRangeCheck
    by_cases hie : nx.isEmpty = true
    · rw [if_pos hie]
    · rw [if_neg hie, if_neg hnot]
  · intro nx hx h1 h2
    unfold select_date
    rw [hx, Option.getD_some]
    unfold dateRangeCheck
    rw [if_neg (by simp [normalize_date_ne_empty hx]), if_pos ⟨h1, h2⟩]

/-- Claim C2, witness: the spec's own end-to-end scenario — window
`2024/06/01..2024/06/10`; no date ⇒ `2024/06/10`; `2024/13/40` (invalid)
⇒ `2024/06/10`; `2024/6/5` (valid, in window) ⇒ `2024/06/05`. -/
theorem claim_C2_witness :
    select_date "2024/06/01" "2024/06/10" none "" = "2024/06/10" ∧
    select_date "2024/06/01" "2024/06/10" (some "2024/13/40") "" =
      "2024/06/10" ∧
    select_date "2024/06/01" "2024/06/10" (some "2024/6/5") "" =
      "2024/06/05" :=
  ⟨(claim_C2_select_date "2024/06/01" "2024/06/10" none "" (by decide)).1
     rfl (by decide),
   (claim_C2_select_date "2024/06/01" "2024/06/10" (some "2024/13/40") ""
     (by decide)).2.1 (by decide),
   ((claim_C2_select_date "2024/06/01" "2024/06/10" (some "2024/6/5") ""
     (by decide)).2.2.2 "2024/06/05" (by decide) (by decide) (by decide))⟩

/-! ## Claim C6: `select_ticket_num` -/

/-- Claim C6: for every resolved passenger count `c` (a `u8`, so `c < 256`),
counts above 10 are replaced by 1 with a warning, counts in `0..=10` are
kept, and the stored ticket field is the decimal count followed by the single
type letter F/H/W/E/P of the ticket type. -/
theorem claim_C6_select_ticket_num (p : BookingPayload) (t : TicketType)
    (c : Nat) (h : c < 256) :
    (10 < c → (p.select_ticket_num t c).ticketField t =
      "1" ++ (TicketType.letter t).toString) ∧
    (c ≤ 10 → (p.select_ticket_num t c).ticketField t =
      Nat.repr c ++ (TicketType.letter t).toString) ∧
    (TicketType.letter t).toString =
      (match t with
       | .Adult => "F"
       | .Child => "H"
       | .Disabled => "W"
       | .Elder => "E"
       | .College => "P") := by
  refine ⟨?_, ?_, ?_⟩
  · intro hc
    cases t <;>
      simp [BookingPayload.select_ticket_num, BookingPayload.ticketField,
        if_pos hc, show Nat.repr 1 = "1" from rfl]
  · intro hc
    have hnc : ¬(c > 10) := by omega
    cases t <;>
      simp [BookingPayload.select_ticket_num, BookingPayload.ticketField,
        if_neg hnc]
  · cases t <;> rfl

/-- Claim C6, witness: a count of 11 clamps to `"1P"` for the college type,
and a count of 3 stays `"3H"` for the child type. -/
theorem claim_C6_witness :
    (BookingPayload.default.select_ticket_num .College 11).ticketField
      .College = "1" ++ (TicketType.letter .College).toString ∧
    (BookingPayload.default.select_ticket_num .Child 3).ticketField
      .Child = Nat.repr 3 ++ (TicketType.letter .Child).toString :=
  ⟨(claim_C6_select_ticket_num BookingPayload.default .College 11
      (by decide)).1 (by decide),
   (claim_C6_select_ticket_num BookingPayload.default .Child 3
      (by decide)).2.1 (by decide)⟩

/-! ## Claim C7: default payload and URL-encoding round trip -/

/-- Claim C7: the default `BookingPayload` (the spec's
`BookingCriteriaPayload`) carries origin station 2, destination station 12,
adult ticket count `"1F"` and child/disabled/elder/college counts
`"0H"/"0W"/"0E"/"0P"`; URL-encoding it with the serde field renames and
reading the renamed fields back from the encoded body reproduces exactly
these values. -/
theorem claim_C7_default_roundtrip :
    BookingPayload.default.start_station = 2 ∧
    BookingPayload.default.dest_station = 12 ∧
    BookingPayload.default.adult_ticket_num = "1F" ∧
    BookingPayload.default.child_ticket_num = "0H" ∧
    BookingPayload.default.disabled_ticket_num = "0W" ∧
    BookingPayload.default.elder_ticket_num = "0E" ∧
    BookingPayload.default.college_ticket_num = "0P" ∧
    lookupField "selectStartStation"
      (decodePairs (encodeBookingPayload BookingPayload.default)) =
      some "2" ∧
    lookupField "selectDestinationStation"
      (decodePairs (encodeBookingPayload BookingPayload.default)) =
      some "12" ∧
    lookupField "ticketPanel:rows:0:ticketAmount"
      (decodePairs (encodeBookingPayload BookingPayload.default)) =
      some "1F" ∧
    lookupField "ticketPanel:rows:1:ticketAmount"
      (decodePairs (encodeBookingPayload BookingPayload.default)) =
      some "0H" ∧
    lookupField "ticketPanel:rows:2:ticketAmount"
      (decodePairs (encodeBookingPayload BookingPayload.default)) =
      some "0W" ∧
    lookupField "ticketPanel:rows:3:ticketAmount"
      (decodePairs (encodeBookingPayload BookingPayload.default)) =
      some "0E" ∧
    lookupField "ticketPanel:rows:4:ticketAmount"
      (decodePairs (encodeBookingPayload BookingPayload.default)) =
      some "0P" := by
  decide

/-! ## Claim C9: `select_seat_prefer` and `select_class_type` -/

/-- Claim C9: a seat-preference input outside `{0,1,2}` resolves to 0 ("no
preference") and a class-type input outside `{0,1}` resolves to 0
("standard"); inputs inside those ranges are kept unchanged. -/
theorem claim_C9_seat_class (p : BookingPayload) (sp ct : Nat) :
    (¬(sp = 0 ∨ sp = 1 ∨ sp = 2) →
      (p.select_seat_prefer sp).seat_prefer = 0) ∧
    ((sp = 0 ∨ sp = 1 ∨ sp = 2) →
      (p.select_seat_prefer sp).seat_prefer = sp) ∧
    (¬(ct = 0 ∨ ct = 1) → (p.select_class_type ct).class_type = 0) ∧
    ((ct = 0 ∨ ct = 1) → (p.select_class_type ct).class_type = ct) := by
  refine ⟨?_, ?_, ?_, ?_⟩
  · intro h
    have hgt : sp > 2 := by omega
    simp [BookingPayload.select_seat_prefer, if_pos hgt]
  · intro h
    have hle : ¬(sp > 2) := by omega
    simp [BookingPayload.select_seat_prefer, if_neg hle]
  · intro h
    have hgt : ct > 1 := by omega
    simp [BookingPayload.select_class_type, if_pos hgt]
  · intro h
    have hle : ¬(ct > 1) := by omega
    simp [BookingPayload.select_class_type, if_neg hle]

/-- Claim C9, witness: seat preference 5 clamps to 0, seat preference 1 is
kept, class type 7 clamps to 0, class type 1 is kept. -/
theorem claim_C9_witness :
    (BookingPayload.default.select_seat_prefer 5).seat_prefer = 0 ∧
    (BookingPayload.default.select_seat_prefer 1).seat_prefer = 1 ∧
    (BookingPayload.default.select_class_type 7).class_type = 0 ∧
    (BookingPayload.default.select_class_type 1).class_type = 1 :=
  ⟨(claim_C9_seat_class BookingPayload.default 5 0).1 (by omega),
   (claim_C9_seat_class BookingPayload.default 1 0).2.1 (by omega),
   (claim_C9_seat_class BookingPayload.default 0 7).2.2.1 (by omega),
   (claim_C9_seat_class BookingPayload.default 0 1).2.2.2 (by omega)⟩

/-! ## Claim C10: `select_available_trains` -/

/-- Claim C10: `select_available_trains` indexes `trains[selection - 1]`
with no bounds check or clamping: the panic branch (`none`) is avoided
exactly when `1 ≤ selection ≤ trains.len()`, and then the selected train's
opaque form value is copied verbatim; for selection 0, a selection past the
end, or an empty list, the operation is not total (`none` = panic). -/
theorem claim_C10_select_available_trains (trains : List Train) (sel : Nat) :
    ((select_available_trains trains sel).isSome = true ↔
      1 ≤ sel ∧ sel ≤ trains.length) ∧
    (∀ t : Train, 1 ≤ sel → trains[sel - 1]? = some t →
      select_available_trains trains sel = some t.form_value) := by
  constructor
  · unfold select_available_trains
    by_cases h0 : sel = 0
    · subst h0
      simp
    · rw [if_neg h0]
      constructor
      · intro hs
        rcases Option.isSome_iff_exists.mp hs with ⟨v, hv⟩
        rcases Option.map_eq_some'.mp hv with ⟨t, hget, _⟩
        have hlt := (getElem?_isSome_iff trains (sel - 1)).mp
          (by rw [hget]; rfl)
        omega
      · rintro ⟨hs1, hs2⟩
        have hlt : sel - 1 < trains.length := by omega
        rcases Option.isSome_iff_exists.mp
          ((getElem?_isSome_iff trains (sel - 1)).mpr hlt) with ⟨t, hget⟩
        rw [hget]
        rfl
  · intro t h1 hget
    unfold select_available_trains
    rw [if_neg (by omega), hget]
    rfl

/-! ## Claim C3: `parse_error` -/

/-- On a page whose error banners all carry a text node, the `errors` vector
of `parse_error` is the trimmed first text of each banner in document
order. -/
theorem errorTexts_eq (page : List PageElement)
    (h : ∀ e ∈ page, e.isFeedbackError = true → e.texts ≠ []) :
    errorTexts page =
      (page.filter fun e => e.isFeedbackError).map
        fun e => rustTrim (e.texts.headD "") := by
  induction page with
  | nil => rfl
  | cons e rest ih =>
    have hrest := fun x hx => h x (List.mem_cons_of_mem _ hx)
    cases hfe : e.isFeedbackError with
    | false =>
      unfold errorTexts at ih ⊢
      rw [List.filterMap_cons, List.filter_cons]
      simp only [hfe, Bool.false_eq_true, if_false, ih hrest]
    | true =>
      have hne : e.texts ≠ [] := h e (List.mem_cons_self _ _) hfe
      obtain ⟨t, ts, hts⟩ : ∃ t ts, e.texts = t :: ts := by
        cases hmm : e.texts with
        | nil => exact absurd hmm hne
        | cons a b => exact ⟨a, b, rfl⟩
      unfold errorTexts at ih ⊢
      rw [List.filterMap_cons, List.filter_cons]
      simp [hfe, hts, ih hrest]

/-- Claim C3: on a page whose error-banner elements each carry a text node,
`parse_error` returns `None` when there is no `feedbackPanelERROR`-class
element, and otherwise the trimmed texts of all such elements joined by a
single newline in document order. -/
theorem claim_C3_parse_error (page : List PageElement)
    (h : ∀ e ∈ page, e.isFeedbackError = true → e.texts ≠ []) :
    ((page.filter fun e => e.isFeedbackError) = [] →
      parse_error page = none) ∧
    ((page.filter fun e => e.isFeedbackError) ≠ [] →
      parse_error page =
        some (joinWith "\n"
          ((page.filter fun e => e.isFeedbackError).map
            fun e => rustTrim (e.texts.headD "")))) := by
  have hfm := errorTexts_eq page h
  unfold parse_error
  rw [hfm]
  constructor
  · intro hnil
    rw [hnil]
    rfl
  · intro hne
    rw [if_neg]
    cases hl : page.filter fun e => e.isFeedbackError with
    | nil => exact absurd hl hne
    | cons a b => simp

/-- Claim C3, witness: the spec's instance — a page with two error banners
carrying texts `"A"` and `"B"` (and an unrelated element between them)
yields exactly `"A\nB"`; a page with none yields `None`. -/
theorem claim_C3_witness :
    parse_error [⟨true, ["A"]⟩, ⟨false, ["junk"]⟩, ⟨true, ["B"]⟩] =
      some "A\nB" ∧
    parse_error [⟨false, ["junk"]⟩] = none :=
  ⟨((claim_C3_parse_error
      [⟨true, ["A"]⟩, ⟨false, ["junk"]⟩, ⟨true, ["B"]⟩]
      (by decide)).2 (by decide)).trans (by decide),
   (claim_C3_parse_error [⟨false, ["junk"]⟩] (by decide)).1 (by decide)⟩

/-! ## Claim C8: `parse_discount` -/

/-- Claim C8: for a train listing element whose present discount spans carry
text, the discount annotation is `"(early, student)"` when both an
early-bird and a student span are present (early-bird first), `"(text)"`
when exactly one is present, and `""` when neither is present. -/
theorem claim_C8_parse_discount (item : TrainListingItem) :
    (∀ a b ta tb, item.earlyBirdSpans.head? = some ta → ta.head? = some a →
      item.studentSpans.head? = some tb → tb.head? = some b →
      parse_discount item = some ("(" ++ a ++ ", " ++ b ++ ")")) ∧
    (∀ a ta, item.earlyBirdSpans.head? = some ta → ta.head? = some a →
      item.studentSpans.head? = none →
      parse_discount item = some ("(" ++ a ++ ")")) ∧
    (∀ b tb, item.earlyBirdSpans.head? = none →
      item.studentSpans.head? = some tb → tb.head? = some b →
      parse_discount item = some ("(" ++ b ++ ")")) ∧
    (item.earlyBirdSpans.head? = none → item.studentSpans.head? = none →
      parse_discount item = some "") := by
  refine ⟨?_, ?_, ?_, ?_⟩
  · intro a b ta tb hEB hta hS htb
    have h1 : firstSpanText item.earlyBirdSpans = some [a] := by
      simp [firstSpanText, hEB, hta]
    have h2 : firstSpanText item.studentSpans = some [b] := by
      simp [firstSpanText, hS, htb]
    unfold parse_discount
    rw [h1, h2]
    simp [joinWith, String.append_assoc]
  · intro a ta hEB hta hS
    have h1 : firstSpanText item.earlyBirdSpans = some [a] := by
      simp [firstSpanText, hEB, hta]
    have h2 : firstSpanText item.studentSpans = some [] := by
      simp [firstSpanText, hS]
    unfold parse_discount
    rw [h1, h2]
    simp [joinWith]
  · intro b tb hEB hS htb
    have h1 : firstSpanText item.earlyBirdSpans = some [] := by
      simp [firstSpanText, hEB]
    have h2 : firstSpanText item.studentSpans = some [b] := by
      simp [firstSpanText, hS, htb]
    unfold parse_discount
    rw [h1, h2]
    simp [joinWith]
  · intro hEB hS
    have h1 : firstSpanText item.earlyBirdSpans = some [] := by
      simp [firstSpanText, hEB]
    have h2 : firstSpanText item.studentSpans = some [] := by
      simp [firstSpanText, hS]
    unfold parse_discount
    rw [h1, h2]
    rfl

/-- Claim C8, witness: the theorem applied to concrete listing elements —
both spans present, one present, none present. -/
theorem claim_C8_witness :
    parse_discount ⟨[["early"]], [["student"]]⟩ = some "(early, student)" ∧
    parse_discount ⟨[["early"]], []⟩ = some "(early)" ∧
    parse_discount ⟨[], []⟩ = some "" :=
  ⟨((claim_C8_parse_discount ⟨[["early"]], [["student"]]⟩).1
      "early" "student" ["early"] ["student"] rfl rfl rfl rfl).trans
      (by decide),
   ((claim_C8_parse_discount ⟨[["early"]], []⟩).2.1
      "early" ["early"] rfl rfl rfl).trans (by decide),
   (claim_C8_parse_discount ⟨[], []⟩).2.2.2 rfl rfl⟩

/-- Claim C10, witness: a one-train list with selection 1 yields that
train's form value; the `isSome` characterization evaluated at selection 0
and 2 on the same list. -/
theorem claim_C10_witness :
    select_available_trains
      [{ id := 609, depart := "08:00", arrive := "09:30",
         travel_time := "1:30", discount_info := "", form_value := "V1" }] 1 =
      some "V1" :=
  (claim_C10_select_available_trains _ 1).2
    { id := 609, depart := "08:00", arrive := "09:30", travel_time := "1:30",
      discount_info := "", form_value := "V1" } (by decide) rfl

/-! ## Claim C4: `process_early_bird` -/

theorem dropWhile_head_not {p : Char → Bool} {l r : List Char} {c : Char}
    (h : l.dropWhile p = c :: r) : p c = false := by
  induction l with
  | nil => exact List.noConfusion h
  | cons x xs ih =>
    rw [List.dropWhile_cons] at h
    by_cases hx : p x = true
    · rw [if_pos hx] at h
      exact ih h
    · rw [if_neg hx] at h
      cases h
      simpa using hx

theorem dropWsRight_isPrefixOf (l : List Char) : dropWsRight l <+: l := by
  unfold dropWsRight
  have hsuff : l.reverse.dropWhile isWs <:+ l.reverse :=
    List.dropWhile_suffix _
  have h2 := List.reverse_prefix.mpr hsuff
  rw [List.reverse_reverse] at h2
  exact h2

theorem trimList_head_not_ws {l r : List Char} {c : Char}
    (h : trimList l = c :: r) : isWs c = false := by
  unfold trimList at h
  rcases dropWsRight_isPrefixOf (l.dropWhile isWs) with ⟨t, ht⟩
  rw [h] at ht
  exact dropWhile_head_not ht.symm

theorem string_eq_empty_iff {s : String} : s = "" ↔ s.data = [] := by
  constructor
  · rintro rfl
    rfl
  · intro h
    cases s with
    | mk l =>
      have hl : l = [] := h
      rw [hl]

/-- Trimming an already-trimmed nonempty string cannot produce the empty
string (the retry loop's accepted id stays nonempty after the source's
second `trim`). -/
theorem rustTrim_of_trimmed_ne_empty {s : String} (hne : rustTrim s ≠ "") :
    rustTrim (rustTrim s) ≠ "" := by
  obtain ⟨c, r, hcr⟩ : ∃ c r, (rustTrim s).data = c :: r := by
    cases hd : (rustTrim s).data with
    | nil => exact absurd (string_eq_empty_iff.mpr hd) hne
    | cons c r => exact ⟨c, r, rfl⟩
  have hc : isWs c = false := trimList_head_not_ws (l := s.data) hcr
  intro hcontra
  have hdata : trimList (rustTrim s).data = [] :=
    string_eq_empty_iff.mp hcontra
  rw [hcr] at hdata
  unfold trimList at hdata
  rw [List.dropWhile_cons, if_neg (by simp [hc])] at hdata
  unfold dropWsRight at hdata
  have h2 : (c :: r).reverse.dropWhile isWs = [] := by
    cases hdw : (c :: r).reverse.dropWhile isWs with
    | nil => rfl
    | cons x xs =>
      rw [hdw] at hdata
      simp at hdata
  have h3 := List.dropWhile_eq_nil_iff.mp h2 c (by simp)
  rw [hc] at h3
  exact Bool.noConfusion h3

/-- An id accepted by the retry loop is nonempty and is the trim of some
typed line. -/
theorem firstNonEmpty_spec {ls : List String} {t : String}
    (h : firstNonEmpty ls = some t) : t ≠ "" ∧ ∃ l, t = rustTrim l := by
  induction ls with
  | nil => exact Option.noConfusion h
  | cons l rest ih =>
    unfold firstNonEmpty at h
    by_cases hie : (getInputStr l "").isEmpty = true
    · rw [if_pos hie] at h
      exact ih h
    · rw [if_neg hie] at h
      cases h
      refine ⟨?_, ?_⟩
      · intro hcontra
        apply hie
        rw [hcontra]
        rfl
      · by_cases hrt : (rustTrim l).isEmpty = true
        · exfalso
          apply hie
          unfold getInputStr
          rw [if_pos hrt]
          rfl
        · exact ⟨l, by unfold getInputStr; rw [if_neg hrt]⟩

/-- The subsequent-passenger loop of `process_early_bird` builds one record
per passenger, all sharing the scraped type code and id-kind flag `"0"`,
with blank names and a nonempty id, as long as every passenger's retry lines
contain a nonempty answer. -/
theorem earlyBirdRest_spec (et : String) (restLines : Nat → List String)
    (hinp : ∀ k, (firstNonEmpty (restLines k)).isSome = true) :
    ∀ n k, ∃ rest, earlyBirdRest et restLines k n = some rest ∧
      rest.length = n ∧
      ∀ p ∈ rest, p.lastName = "" ∧ p.firstName = "" ∧ p.typeName = et ∧
        p.inputChoice = "0" ∧ p.idNumber ≠ "" := by
  intro n
  induction n with
  | zero =>
    intro k
    exact ⟨[], rfl, rfl, by simp⟩
  | succ n ih =>
    intro k
    rcases Option.isSome_iff_exists.mp (hinp k) with ⟨id, hid⟩
    rcases ih (k + 1) with ⟨rest, hrest, hlen, hall⟩
    rcases firstNonEmpty_spec hid with ⟨hid_ne, l, hl⟩
    refine ⟨{ lastName := "", firstName := "", typeName := et,
              idNumber := rustTrim id, inputChoice := "0" } :: rest,
            ?_, ?_, ?_⟩
    · unfold earlyBirdRest
      rw [hid, hrest]
      rfl
    · simp [hlen]
    · intro p hp
      rcases List.mem_cons.mp hp with hhead | htail
      · subst hhead
        refine ⟨rfl, rfl, rfl, rfl, ?_⟩
        rw [hl]
        exact rustTrim_of_trimmed_ne_empty (hl ▸ hid_ne)
      · exact hall p htail

/-- Unfolding `process_early_bird` on a page with markers and a present hidden type
field reduces to the loop result prefixed with the first passenger's
entry. -/
theorem process_early_bird_eq (page : ConfirmPage)
    (pid firstLine : String) (restLines : Nat → List String) (et : String)
    (hie : (earlyBirdTexts page).isEmpty = false)
    (htype : page.passengerTypeValue = some et) :
    process_early_bird page pid firstLine restLines =
      match earlyBirdRest et restLines 0 ((earlyBirdTexts page).length - 1)
        with
      | none => none
      | some rest =>
        some (some ({ lastName := "", firstName := "", typeName := et,
                      idNumber := getInputStr firstLine pid,
                      inputChoice := "0" } :: rest)) := by
  unfold process_early_bird
  rw [if_neg (by simp [hie]), htype]

/-- Claim C4, counterexample.  The claim asserts that no entry of the
passenger map ever carries a blank id.  On a page with a single early-bird
marker, a blank personal identifier and a blank answer to the first
passenger's prompt, the first (and only) entry's id is blank: the first id
is *defaulted*, not re-prompted, so nothing forces it to be nonempty. -/
theorem claim_C4_counterexample :
    process_early_bird ⟨[["x"]], some "T"⟩ "" "" (fun _ => ["z"]) =
      some (some [{ lastName := "", firstName := "", typeName := "T",
                    idNumber := "", inputChoice := "0" }]) ∧
    ({ lastName := "", firstName := "", typeName := "T", idNumber := "",
       inputChoice := "0" } : Passenger).idNumber = "" := by
  decide

/-- Claim C4, amended: when the confirmation page contains `n ≥ 1`
early-bird markers (text-bearing `.superEarlyBird` elements) and the hidden
passenger-type field is present, `process_early_bird` returns a passenger
map with exactly `n` entries, all sharing the scraped passenger-type code
and id-kind flag `"0"` and blank first/last names; the first passenger's id
defaults to the personal identifier (and is blank exactly when both the
prompt answer and the personal identifier are blank), and each of the
`n - 1` subsequent ids is re-prompted until nonempty, so no *subsequent*
entry carries a blank id; with no markers it returns `None`. -/
theorem claim_C4_process_early_bird (page : ConfirmPage)
    (pid firstLine : String) (restLines : Nat → List String) :
    (earlyBirdTexts page = [] →
      process_early_bird page pid firstLine restLines = some none) ∧
    (∀ et, earlyBirdTexts page ≠ [] →
      page.passengerTypeValue = some et →
      (∀ k, (firstNonEmpty (restLines k)).isSome = true) →
      ∃ l, process_early_bird page pid firstLine restLines = some (some l) ∧
        l.length = (earlyBirdTexts page).length ∧
        l.head?.map Passenger.idNumber =
          some (getInputStr firstLine pid) ∧
        (∀ p ∈ l, p.lastName = "" ∧ p.firstName = "" ∧ p.typeName = et ∧
          p.inputChoice = "0") ∧
        (∀ p ∈ l.tail, p.idNumber ≠ "")) := by
  constructor
  · intro hnil
    unfold process_early_bird
    rw [if_pos (by rw [hnil]; rfl)]
  · intro et hne htype hinp
    have hie : (earlyBirdTexts page).isEmpty = false := by
      cases hl : earlyBirdTexts page with
      | nil => exact absurd hl hne
      | cons a b => rfl
    have hlen1 : 1 ≤ (earlyBirdTexts page).length := by
      cases hl : earlyBirdTexts page with
      | nil => exact absurd hl hne
      | cons a b => simp
    rcases earlyBirdRest_spec et restLines hinp
      ((earlyBirdTexts page).length - 1) 0 with ⟨rest, hrest, hrlen, hall⟩
    refine ⟨{ lastName := "", firstName := "", typeName := et,
              idNumber := getInputStr firstLine pid,
              inputChoice := "0" } :: rest, ?_, ?_, ?_, ?_, ?_⟩
    · rw [process_early_bird_eq page pid firstLine restLines et hie htype,
        hrest]
    · simp only [List.length_cons, hrlen]
      omega
    · rfl
    · intro p hp
      rcases List.mem_cons.mp hp with hhead | htail
      · subst hhead
        exact ⟨rfl, rfl, rfl, rfl⟩
      · rcases hall p htail with ⟨h1, h2, h3, h4, _⟩
        exact ⟨h1, h2, h3, h4⟩
    · intro p hp
      rcases hall p hp with ⟨_, _, _, _, h5⟩
      exact h5

/-- Claim C4, witness: a page with two markers, personal id `"A123"`, blank
first-prompt answer, and retry lines whose second entry is nonempty — the
amended theorem applied there. -/
theorem claim_C4_witness :
    ∃ l, process_early_bird ⟨[["x"], ["y"]], some "T"⟩ "A123" ""
        (fun _ => ["", " z9 "]) = some (some l) ∧
      l.length = (earlyBirdTexts ⟨[["x"], ["y"]], some "T"⟩).length ∧
      l.head?.map Passenger.idNumber = some (getInputStr "" "A123") ∧
      (∀ p ∈ l, p.lastName = "" ∧ p.firstName = "" ∧ p.typeName = "T" ∧
        p.inputChoice = "0") ∧
      (∀ p ∈ l.tail, p.idNumber ≠ "") :=
  (claim_C4_process_early_bird ⟨[["x"], ["y"]], some "T"⟩ "A123" ""
    (fun _ => ["", " z9 "])).2 "T" (by decide) rfl (fun k => by decide)

end THSR
